import Mathlib

/-!
Shallow embedding, in Lean 4, of the three scripts of the repository
`analysis_genomic_data`:

* `scripts/pause_file_with_fork_coordinates.py` — annotate pause records
  with overlapping replication-fork coordinates, synthesize records for
  forks that matched no pause, and concatenate both into one output table;
* `scripts/count_events_in_windows.py` — sliding-window event counter;
* `scripts/bed_and_fasta_to_genbank.py` — FASTA+BED to GenBank converter.

Tables are modelled as lists of records; pandas cells that hold either the
string sentinel "NA" or a typed value are modelled as `Option` values
(`none` standing for the "NA" sentinel).  Python behaviours that the
scripts rely on (`str.split`, list indexing raising `IndexError`,
`int(...)`, `str(...)` formatting) are embedded as explicit executable
functions below.
-/

/-! ### Python primitive helpers -/

/-- Accumulator-based splitter: `py_split_p_aux p cs acc` mirrors Python
`str.split(sep)` restricted to the characters `cs`, with `p` deciding which
character is the separator; empty components are kept, as in Python. -/
def py_split_p_aux (p : Char → Bool) : List Char → List Char → List (List Char)
  | [], acc => [acc.reverse]
  | c :: cs, acc =>
    if p c then acc.reverse :: py_split_p_aux p cs []
    else py_split_p_aux p cs (c :: acc)

/-- Python `s.split(sep)` on an explicit character list: always returns a
non-empty list; `[] ↦ [[]]` just as `"".split("_") == [""]` in Python. -/
def py_split (sep : Char) (s : List Char) : List (List Char) :=
  py_split_p_aux (fun c => c == sep) s []

/-- Python `l[0]`: `none` models the `IndexError` raised on an empty list. -/
def py_index0 {α : Type} (l : List α) : Option α :=
  l.head?

/-- `pause["detectIndex"].apply(lambda x: x.split("_")[0])` in `main`:
derive the read identifier as the first underscore-separated component of
the detect index.  (`py_split` never returns `[]`, so the `getD` default is
never taken; see `py_split_ne_nil`.) -/
def derive_readID (s : String) : String :=
  String.mk ((py_index0 (py_split '_' s.data)).getD [])

/-- Decimal digits of `n`, most significant first, computed with `fuel`
iterations (callers pass fuel `> n`). -/
def nat_digs : Nat → Nat → List Char
  | 0, _ => []
  | fuel + 1, n =>
    if n < 10 then [Char.ofNat (48 + n)]
    else nat_digs fuel (n / 10) ++ [Char.ofNat (48 + n % 10)]

/-- Python `str(i)` for an integer. -/
def int_str (i : Int) : String :=
  match i with
  | Int.ofNat n => String.mk (nat_digs (n + 1) n)
  | Int.negSucc m => String.mk ('-' :: nat_digs (m + 2) (m + 1))

/-- Render a pandas cell holding an integer or the "NA" sentinel. -/
def opt_int_str : Option Int → String
  | none => "NA"
  | some n => int_str n

/-- Render a pandas cell holding a string or NaN (Python formats NaN as
"nan" in an f-string). -/
def opt_str_str : Option String → String
  | none => "nan"
  | some s => s

/-- Python `s.strip()`: drop whitespace from both ends. -/
def py_strip (s : String) : String :=
  String.mk (((s.data.dropWhile Char.isWhitespace).reverse.dropWhile Char.isWhitespace).reverse)

/-- Python `s.split(sep)` producing strings. -/
def py_split_str (sep : Char) (s : String) : List String :=
  (py_split sep s.data).map String.mk

/-- Python `s.split()` (no argument): split on whitespace runs, discarding
empty components. -/
def py_split_ws (s : String) : List String :=
  ((py_split_p_aux Char.isWhitespace s.data []).map String.mk).filter (fun t => !t.isEmpty)

/-- Python `s.startswith(pre)` on character lists. -/
def list_starts_with : List Char → List Char → Bool
  | _, [] => true
  | [], _ :: _ => false
  | c :: cs, p :: ps => c == p && list_starts_with cs ps

/-- Python `s.startswith(pre)`. -/
def py_startswith (s pre : String) : Bool :=
  list_starts_with s.data pre.data

/-- Python `s.lower()` (ASCII). -/
def py_lower (s : String) : String :=
  String.mk (s.data.map Char.toLower)

/-- Digit-list accumulator for `py_int`. -/
def digits_aux : List Char → Nat → Option Nat
  | [], acc => some acc
  | c :: cs, acc =>
    if c.isDigit then digits_aux cs (acc * 10 + (c.toNat - 48)) else none

/-- Parse a non-empty all-digit character list. -/
def digits_to_nat (l : List Char) : Option Nat :=
  match l with
  | [] => none
  | _ :: _ => digits_aux l 0

/-- Python `int(s)`: `none` models the `ValueError` raised on a
non-numeric literal. -/
def py_int (s : String) : Option Int :=
  match s.data with
  | '-' :: rest => (digits_to_nat rest).map (fun n => -(n : Int))
  | '+' :: rest => (digits_to_nat rest).map (fun n => (n : Int))
  | l => (digits_to_nat l).map (fun n => (n : Int))

/-! ### `pause_file_with_fork_coordinates.py` — data model -/

/-- One parsed row of a fork file (`load_fork_file` input): eight
whitespace-separated columns
`contig fork_start fork_end read_id contig start_read end_read strand`,
with the two coordinate columns already coerced to integers
(`df[...].astype(int)`). -/
structure ForkRaw where
  contig : String
  fstart : Int
  fend : Int
  readID : String
  contig2 : String
  start_read : Int
  end_read : Int
  strand : String
deriving DecidableEq

/-- A fork-table row after `load_fork_file`: strand mapped through
`{"fwd": "+", "rev": "-"}` (anything else becomes NaN = `none`) and a
constant `direction` column added. -/
structure LoadedFork where
  contig : String
  fstart : Int
  fend : Int
  readID : String
  contig2 : String
  start_read : Int
  end_read : Int
  strand : Option String
  direction : String
deriving DecidableEq

/-- `df["strand"].map({"fwd": "+", "rev": "-"})` applied to one cell. -/
def map_strand (s : String) : Option String :=
  if s = "fwd" then some "+" else if s = "rev" then some "-" else none

/-- `load_fork_file(fork_file, fork_type)`: map the strand codes and tag
every row with direction `"L"` when `fork_type == "lf"`, else `"R"`. -/
def load_fork_file (rows : List ForkRaw) (fork_type : String) : List LoadedFork :=
  rows.map (fun r =>
    { contig := r.contig
      fstart := r.fstart
      fend := r.fend
      readID := r.readID
      contig2 := r.contig2
      start_read := r.start_read
      end_read := r.end_read
      strand := map_strand r.strand
      direction := if fork_type = "lf" then "L" else "R" })

/-- One row of the pause file as loaded by `pd.read_csv` in `main`:
`detectIndex` and the integer-coerced `pauseSite`, the original `contig`
column if the file has one, and all remaining columns as passthrough
name/value pairs. -/
structure PauseInput where
  detectIndex : String
  pauseSite : Int
  contig : Option String
  passthrough : List (String × String)
deriving DecidableEq

/-- A pause row after `main` has added `readID` and initialized the
augmentation columns to the "NA" sentinel (`none`). -/
structure PauseRow where
  detectIndex : String
  pauseSite : Int
  passthrough : List (String × String)
  readID : String
  left_fork_start : Option Int
  left_fork_end : Option Int
  right_fork_start : Option Int
  right_fork_end : Option Int
  direction : Option String
  strand : Option String
  alignLen : Option Int
  contig : Option String
  start_read : Option Int
  end_read : Option Int
deriving DecidableEq

/-- Lines 150–162 of the script: derive `readID` from `detectIndex` and
initialize the fork/augmentation columns to "NA". -/
def init_pause (p : PauseInput) : PauseRow :=
  { detectIndex := p.detectIndex
    pauseSite := p.pauseSite
    passthrough := p.passthrough
    readID := derive_readID p.detectIndex
    left_fork_start := none
    left_fork_end := none
    right_fork_start := none
    right_fork_end := none
    direction := none
    strand := none
    alignLen := none
    contig := p.contig
    start_read := none
    end_read := none }

/-- The boolean mask of `assign_fork`:
`(df["readID"] == readID) & (df["start"] <= ps) & (df["end"] >= ps)`. -/
def fork_matches (readID : String) (ps : Int) (f : LoadedFork) : Bool :=
  f.readID == readID && decide (f.fstart ≤ ps) && decide (ps ≤ f.fend)

/-- `assign_fork(row, lf_df, rf_df)`: take the first left-fork row whose
interval contains the pause site (pandas boolean indexing keeps the table
order, and `.iloc[0]` takes the first such row); only if there is none,
do the same against the right-fork table; otherwise return the row
unchanged. -/
def assign_fork (row : PauseRow) (lf_df rf_df : List LoadedFork) : PauseRow :=
  match lf_df.find? (fork_matches row.readID row.pauseSite) with
  | some r =>
    { row with
      direction := some "L"
      left_fork_start := some r.fstart
      left_fork_end := some r.fend
      strand := r.strand
      alignLen := some r.end_read
      contig := some r.contig
      start_read := some r.start_read
      end_read := some r.end_read }
  | none =>
    match rf_df.find? (fork_matches row.readID row.pauseSite) with
    | some r =>
      { row with
        direction := some "R"
        right_fork_start := some r.fstart
        right_fork_end := some r.fend
        strand := r.strand
        alignLen := some r.end_read
        contig := some r.contig
        start_read := some r.start_read
        end_read := some r.end_read }
    | none => row

/-- A record of the final output table (matched pause rows after
`keep = True`, or synthesized orphan-fork rows with `keep = False`).
`pauseSite` is `Option Int` because synthesized rows carry the "NA"
sentinel there.  The temporary `readID` column, which the script drops
just before writing, is kept in the model (it carries no information the
key functions do not also read). -/
structure OutRow where
  detectIndex : String
  pauseSite : Option Int
  passthrough : List (String × String)
  readID : String
  left_fork_start : Option Int
  left_fork_end : Option Int
  right_fork_start : Option Int
  right_fork_end : Option Int
  direction : Option String
  strand : Option String
  alignLen : Option Int
  contig : Option String
  start_read : Option Int
  end_read : Option Int
  keep : Bool
deriving DecidableEq

/-- `construct_detect_index(row)`:
`<readID>_<contig>_<start_read>_<end_read>_<strand>_<direction>_<fork_start>_<fork_end>`,
where the fork pair is the left one when `direction == "L"` and the right
one otherwise. -/
def construct_detect_index (row : OutRow) : String :=
  let fork_start := if row.direction = some "L" then row.left_fork_start else row.right_fork_start
  let fork_end := if row.direction = some "L" then row.left_fork_end else row.right_fork_end
  row.readID ++ "_" ++ opt_str_str row.contig ++ "_" ++ opt_int_str row.start_read ++ "_" ++
    opt_int_str row.end_read ++ "_" ++ opt_str_str row.strand ++ "_" ++
    opt_str_str row.direction ++ "_" ++ opt_int_str fork_start ++ "_" ++ opt_int_str fork_end

/-- View a matched pause row as an output row with `keep = True`
(line 169 of the script). -/
def to_out_row (r : PauseRow) : OutRow :=
  { detectIndex := r.detectIndex
    pauseSite := some r.pauseSite
    passthrough := r.passthrough
    readID := r.readID
    left_fork_start := r.left_fork_start
    left_fork_end := r.left_fork_end
    right_fork_start := r.right_fork_start
    right_fork_end := r.right_fork_end
    direction := r.direction
    strand := r.strand
    alignLen := r.alignLen
    contig := r.contig
    start_read := r.start_read
    end_read := r.end_read
    keep := true }

/-- Lines 167–169: recompute `detectIndex` on every matched row and set
`keep = True`. -/
def matched_out (paused : List PauseRow) : List OutRow :=
  paused.map (fun r =>
    let o := to_out_row r
    { o with detectIndex := construct_detect_index o })

/-- A used-fork key `(readID, fork_start, fork_end, direction)`; the two
coordinates are `Option Int` because the cells they are read from hold
either an integer or the "NA" sentinel. -/
abbrev UsedForkKey : Type := String × Option Int × Option Int × String

/-- The key the used-fork bookkeeping loop (lines 172–177) extracts from a
matched pause row: the left pair under direction "L", otherwise the right
pair under direction "R". -/
def pkey (r : PauseRow) : UsedForkKey :=
  if r.direction = some "L" then (r.readID, r.left_fork_start, r.left_fork_end, "L")
  else (r.readID, r.right_fork_start, r.right_fork_end, "R")

/-- The same key read off an output row. -/
def out_key (r : OutRow) : UsedForkKey :=
  if r.direction = some "L" then (r.readID, r.left_fork_start, r.left_fork_end, "L")
  else (r.readID, r.right_fork_start, r.right_fork_end, "R")

/-- The key `(r["readID"], r[start_col], r[end_col], direction)` of a
fork-table row, as computed in `add_non_paused_forks`. -/
def fork_key (direction : String) (r : LoadedFork) : UsedForkKey :=
  (r.readID, some r.fstart, some r.fend, direction)

/-- Lines 172–177: the set of fork keys consumed by matched pause rows
(modelled as the list of keys; only membership is ever used). -/
def used_fork_keys (paused : List PauseRow) : List UsedForkKey :=
  paused.map pkey

/-- The synthesized row `add_non_paused_forks` builds for one unconsumed
fork: every template column starts at "NA", then contig, strand, alignLen,
start_read, end_read and the direction-appropriate fork pair are filled
from the fork row, `keep` is set to `False`, and `detectIndex` is
reconstructed last. -/
def synth_row (template_columns : List String) (direction : String) (r : LoadedFork) : OutRow :=
  let base : OutRow :=
    { detectIndex := "NA"
      pauseSite := none
      passthrough := template_columns.map (fun c => (c, "NA"))
      readID := r.readID
      left_fork_start := if direction = "L" then some r.fstart else none
      left_fork_end := if direction = "L" then some r.fend else none
      right_fork_start := if direction = "L" then none else some r.fstart
      right_fork_end := if direction = "L" then none else some r.fend
      direction := some direction
      strand := r.strand
      alignLen := some r.end_read
      contig := some r.contig
      start_read := some r.start_read
      end_read := some r.end_read
      keep := false }
  { base with detectIndex := construct_detect_index base }

/-- `add_non_paused_forks(lf, rf, used_forks, template_columns)`: iterate
the left-fork table then the right-fork table, skip every row whose key is
already in the used set, and synthesize a row for each remaining fork. -/
def add_non_paused_forks (lf rf : List LoadedFork) (used_forks : List UsedForkKey)
    (template_columns : List String) : List OutRow :=
  (lf.filter (fun r => decide (fork_key "L" r ∉ used_forks))).map (synth_row template_columns "L") ++
    (rf.filter (fun r => decide (fork_key "R" r ∉ used_forks))).map (synth_row template_columns "R")

/-- Lines 164–167: initialize, run `assign_fork` over every pause row, and
keep the rows whose direction is no longer the "NA" sentinel. -/
def matched_pause_rows (pauseIn : List PauseInput) (lfRaw rfRaw : List ForkRaw) : List PauseRow :=
  ((pauseIn.map (fun p =>
      assign_fork (init_pause p) (load_fork_file lfRaw "lf") (load_fork_file rfRaw "rf"))).filter
    (fun r => decide (r.direction ≠ none)))

/-- The whole `main` dataflow after loading: match, reconstruct identifiers
on matched rows, collect used-fork keys, synthesize orphan-fork rows, and
concatenate matched-then-synthesized (`pd.concat([paused, non_paused])`).
`template_columns` stands for `paused.columns` restricted to the
passthrough columns (the named fields of `OutRow` model all the rest). -/
def run_pipeline (template_columns : List String) (pauseIn : List PauseInput)
    (lfRaw rfRaw : List ForkRaw) : List OutRow :=
  let paused := matched_pause_rows pauseIn lfRaw rfRaw
  matched_out paused ++
    add_non_paused_forks (load_fork_file lfRaw "lf") (load_fork_file rfRaw "rf")
      (used_fork_keys paused) template_columns

/-! ### `count_events_in_windows.py` -/

/-- Python `range(0, stop, step)` for a positive `step`: the multiples of
`step` below `stop`. -/
def py_range0 (stop step : Nat) : List Nat :=
  (List.range ((stop + step - 1) / step)).map (fun i => i * step)

/-- `count_events_in_window(contig, start, end, event_positions)`: the
number of events with `start <= event < end`.  (`contig` is unused, as in
the source.) -/
def count_events_in_window (contig : String) (wstart wend : Nat) (event_positions : List Int) : Nat :=
  event_positions.countP (fun event => decide ((wstart : Int) ≤ event ∧ event < (wend : Int)))

/-- `sliding_window(contig_sizes, events, window_size, slide_size, ...)`:
for every contig, walk `range(0, size, slide_size)`, cap each window end at
the contig size, and emit `(contig, start, end, event_count)` rows in
order.  File writing is modelled as returning the rows. -/
def sliding_window (contig_sizes : List (String × Nat)) (events : List (String × List Int))
    (window_size slide_size : Nat) : List (String × Nat × Nat × Nat) :=
  contig_sizes.flatMap (fun cs =>
    let event_positions := (events.lookup cs.1).getD []
    (py_range0 cs.2 slide_size).map (fun s =>
      (cs.1, s, min (s + window_size) cs.2,
        count_events_in_window cs.1 s (min (s + window_size) cs.2) event_positions)))

/-! ### `bed_and_fasta_to_genbank.py` -/

/-- One feature appended to `records[chrom].features`, with the qualifier
dictionary flattened to ordered name/value pairs. -/
structure Feature where
  chrom : String
  fstart : Int
  fend : Int
  strand_val : Int
  ftype : String
  qualifiers : List (String × String)
deriving DecidableEq

/-- `FEATURE_TYPE_MAP.get(label, "misc_feature")`. -/
def feature_type_map (label : String) : String :=
  if label = "gene" then "gene"
  else if label = "tRNA" then "tRNA"
  else if label = "dh" then "misc_feature"
  else if label = "dg" then "misc_feature"
  else if label = "cnt1" then "repeat_region"
  else if label = "cnt2" then "repeat_region"
  else if label = "cnt3" then "repeat_region"
  else if label = "imr_chr1" then "centromere"
  else if label = "imr_chr2" then "centromere"
  else if label = "imr_chr3" then "centromere"
  else "misc_feature"

/-- The qualifier dictionary built in the BED loop (lines 92–98); Python
truthiness of a string is non-emptiness. -/
def build_qualifiers (label tRNA_type tRNA_seq gene_name : String) : List (String × String) :=
  let q := [("label", label)]
  let q := if gene_name ≠ "" ∧ gene_name ≠ "None" then q ++ [("gene", gene_name)] else q
  if label = "tRNA" then
    q ++ [("product", "tRNA-" ++ tRNA_type ++ "(" ++ tRNA_seq ++ ")")]
  else if label = "gene" ∧ gene_name ≠ "" then
    q ++ [("note", "protein-coding gene " ++ gene_name)]
  else q

/-- The body of the BED loop for one line (lines 65–105).  Result:
`error` models an uncaught exception aborting the run (here only the
`ValueError` of `int(...)`), `ok (feature?, warning?)` models a processed
line that contributed at most one feature and at most one stderr
warning. -/
def process_bed_line (contigs : List String) (region : Option (String × Int × Int))
    (line : String) : Except String (Option Feature × Option String) :=
  if py_strip line = "" ∨ py_startswith line "#" then Except.ok (none, none)
  else
    let parts := py_split_str '\t' (py_strip line)
    if parts.length < 6 then
      Except.ok (none, some ("Skipping malformed line: " ++ line))
    else
      let chrom := parts.getD 0 ""
      let startS := parts.getD 1 ""
      let endS := parts.getD 2 ""
      let label := parts.getD 3 ""
      let strand := if parts.length > 5 then parts.getD 5 "" else "+"
      let tRNA_type := if parts.length > 6 then parts.getD 6 "" else "None"
      let tRNA_seq := if parts.length > 7 then parts.getD 7 "" else "None"
      let gene_name := if parts.length > 8 then parts.getD 8 "" else "None"
      if chrom ∉ contigs then
        Except.ok (none, some ("Warning: contig " ++ chrom ++ " not in FASTA; skipping."))
      else
        match py_int startS, py_int endS with
        | some s, some e =>
          let strand_val : Int := if strand = "+" then 1 else -1
          let ftype := feature_type_map label
          if (match region with
              | some rg => decide (chrom = rg.1) && (decide (e < rg.2.1) || decide (s > rg.2.2))
              | none => false) then
            Except.ok (none, none)
          else
            Except.ok (some
              { chrom := chrom
                fstart := s
                fend := e
                strand_val := strand_val
                ftype := ftype
                qualifiers := build_qualifiers label tRNA_type tRNA_seq gene_name }, none)
        | _, _ => Except.error ("ValueError: invalid literal for int: " ++ startS ++ " " ++ endS)

/-- Fold `process_bed_line` over the data lines, collecting features and
warnings and aborting on the first error. -/
def process_bed_lines (contigs : List String) (region : Option (String × Int × Int)) :
    List String → Except String (List Feature × List String)
  | [] => Except.ok ([], [])
  | l :: ls =>
    match process_bed_line contigs region l with
    | Except.error e => Except.error e
    | Except.ok (feat?, warn?) =>
      match process_bed_lines contigs region ls with
      | Except.error e => Except.error e
      | Except.ok (fs, ws) => Except.ok (feat?.toList ++ fs, warn?.toList ++ ws)

/-- The header sniff (lines 61–63): read the first line, and if its first
whitespace-separated token lowercases to something starting with "chrom",
skip it; a blank or absent first line makes `header[0]` raise
`IndexError`, modelled as `error`. -/
def header_rest (lines : List String) : Except String (List String) :=
  match lines with
  | [] => Except.error "IndexError: list index out of range"
  | l :: ls =>
    match py_split_ws (py_strip l) with
    | [] => Except.error "IndexError: list index out of range"
    | h :: _ => if py_startswith (py_lower h) "chrom" then Except.ok ls else Except.ok (l :: ls)

/-- `bed_to_genbank(fasta, bed, out, region)` up to (not including)
serialization: `contigs` are the FASTA record names, `bedLines` the raw
lines of the BED file.  A region whose contig is absent from the FASTA is
fatal (`sys.exit`, line 54) before the BED file is read; afterwards the
BED lines are processed in order. -/
def bed_to_genbank (contigs : List String) (bedLines : List String)
    (region : Option (String × Int × Int)) : Except String (List Feature × List String) :=
  match region with
  | some rg =>
    if rg.1 ∈ contigs then
      match header_rest bedLines with
      | Except.error e => Except.error e
      | Except.ok rest => process_bed_lines contigs (some rg) rest
    else Except.error ("Contig " ++ rg.1 ++ " not found in FASTA file.")
  | none =>
    match header_rest bedLines with
    | Except.error e => Except.error e
    | Except.ok rest => process_bed_lines contigs none rest

/-! ### Concrete inputs used in scenario theorems, counterexamples and witnesses -/

/-- The §8 scenario pause record `readA_chr1_10_90_+_NA_NA_NA  50`. -/
def scenario_pause : PauseInput :=
  { detectIndex := "readA_chr1_10_90_+_NA_NA_NA", pauseSite := 50, contig := none, passthrough := [] }

/-- The §8 scenario left-fork file row `chr1 40 60 readA chr1 10 90 fwd`. -/
def scenario_left_fork : ForkRaw :=
  { contig := "chr1", fstart := 40, fend := 60, readID := "readA", contig2 := "chr1",
    start_read := 10, end_read := 90, strand := "fwd" }

/-- The single output row the §8 scenario produces. -/
def scenario_out : OutRow :=
  { detectIndex := "readA_chr1_10_90_+_L_40_60", pauseSite := some 50, passthrough := [],
    readID := "readA", left_fork_start := some 40, left_fork_end := some 60,
    right_fork_start := none, right_fork_end := none, direction := some "L",
    strand := some "+", alignLen := some 90, contig := some "chr1",
    start_read := some 10, end_read := some 90, keep := true }

/-- Two pause records on read `a` whose pause sites both fall inside the
same left fork. -/
def dup_pause_one : PauseInput :=
  { detectIndex := "a_x", pauseSite := 50, contig := none, passthrough := [] }

/-- Second pause record on read `a`, also inside the fork `[40, 60]`. -/
def dup_pause_two : PauseInput :=
  { detectIndex := "a_y", pauseSite := 55, contig := none, passthrough := [] }

/-- The single left-fork row `[40, 60]` on read `a` both records match. -/
def dup_fork_raw : ForkRaw :=
  { contig := "c", fstart := 40, fend := 60, readID := "a", contig2 := "c",
    start_read := 1, end_read := 100, strand := "fwd" }

/-- `dup_fork_raw` as `load_fork_file` loads it from the left-fork file. -/
def dup_fork_loaded : LoadedFork :=
  { contig := "c", fstart := 40, fend := 60, readID := "a", contig2 := "c",
    start_read := 1, end_read := 100, strand := some "+", direction := "L" }

/-- A pause input used by several witnesses: read `readW`, pause site 50. -/
def wit_pause : PauseInput :=
  { detectIndex := "readW_7", pauseSite := 50, contig := none, passthrough := [("score", "3")] }

/-- A left fork on `readW` containing site 50. -/
def wit_fork_match : LoadedFork :=
  { contig := "c1", fstart := 40, fend := 60, readID := "readW", contig2 := "c1",
    start_read := 5, end_read := 80, strand := some "+", direction := "L" }

/-- A left fork on `readW` away from site 50. -/
def wit_fork_nomatch : LoadedFork :=
  { contig := "c1", fstart := 100, fend := 120, readID := "readW", contig2 := "c1",
    start_read := 5, end_read := 80, strand := some "+", direction := "L" }

/-- A degenerate zero-length fork exactly at site 50. -/
def wit_fork_degenerate : LoadedFork :=
  { contig := "c1", fstart := 50, fend := 50, readID := "readW", contig2 := "c1",
    start_read := 5, end_read := 80, strand := some "+", direction := "L" }

/-- A right fork on `readW` also containing site 50 (for the left-priority
witness). -/
def wit_fork_right : LoadedFork :=
  { contig := "c1", fstart := 45, fend := 55, readID := "readW", contig2 := "c1",
    start_read := 5, end_read := 80, strand := some "-", direction := "R" }

/-! ### Helper lemmas -/

theorem py_split_p_aux_ne_nil (p : Char → Bool) (l : List Char) :
    ∀ acc, py_split_p_aux p l acc ≠ [] := by
  induction l with
  | nil => intro acc; simp [py_split_p_aux]
  | cons c cs ih =>
    intro acc
    unfold py_split_p_aux
    by_cases h : p c
    · simp [h]
    · simpa [h] using ih (c :: acc)

theorem py_split_ne_nil (sep : Char) (s : List Char) : py_split sep s ≠ [] :=
  py_split_p_aux_ne_nil _ s []

theorem py_split_p_aux_no_sep (p : Char → Bool) (l : List Char) :
    ∀ acc, (∀ c ∈ l, p c = false) → py_split_p_aux p l acc = [acc.reverse ++ l] := by
  induction l with
  | nil => intro acc _; simp [py_split_p_aux]
  | cons c cs ih =>
    intro acc h
    have hc : p c = false := h c (List.mem_cons_self c cs)
    unfold py_split_p_aux
    rw [hc]
    simp only [Bool.false_eq_true, if_false]
    rw [ih (c :: acc) (fun d hd => h d (List.mem_cons_of_mem c hd))]
    simp

theorem find?_eq_get_of_first {α : Type} (p : α → Bool) (l : List α) :
    ∀ (i : Nat) (hi : i < l.length), p (l.get ⟨i, hi⟩) = true →
      (∀ j (hj : j < i), p (l.get ⟨j, Nat.lt_trans hj hi⟩) = false) →
      l.find? p = some (l.get ⟨i, hi⟩) := by
  induction l with
  | nil => intro i hi; exact absurd hi (by simp)
  | cons a t ih =>
    intro i hi hp hfirst
    cases i with
    | zero =>
      exact List.find?_cons_of_pos _ hp
    | succ k =>
      have ha : p a = false := hfirst 0 (Nat.succ_pos k)
      rw [List.find?_cons_of_neg _ (by simp [ha])]
      have hk : k < t.length := by simpa using hi
      have hp2 : p (t.get ⟨k, hk⟩) = true := hp
      have hfirst2 : ∀ j (hj : j < k), p (t.get ⟨j, Nat.lt_trans hj hk⟩) = false :=
        fun j hj => hfirst (j + 1) (Nat.succ_lt_succ hj)
      exact ih k hk hp2 hfirst2

theorem countP_eq_one_of_nodup_map {α β : Type} [DecidableEq β] (g : α → β) (l : List α) (K : β)
    (hnd : (l.map g).Nodup) (hmem : K ∈ l.map g) :
    l.countP (fun a => decide (g a = K)) = 1 := by
  induction l with
  | nil => simp at hmem
  | cons a t ih =>
    rw [List.map_cons, List.nodup_cons] at hnd
    rw [List.countP_cons]
    rcases List.mem_cons.mp hmem with hK | hK
    · subst hK
      have ht : t.countP (fun b => decide (g b = g a)) = 0 := by
        rw [List.countP_eq_zero]
        intro b hb hgb
        rw [decide_eq_true_eq] at hgb
        exact hnd.1 (hgb ▸ List.mem_map_of_mem g hb)
      simp [ht]
    · have hne : ¬(g a = K) := fun h => hnd.1 (h ▸ hK)
      simp [ih hnd.2 hK, hne]

theorem assign_fork_eq_left (row : PauseRow) (lf rf : List LoadedFork) (r : LoadedFork)
    (h : lf.find? (fork_matches row.readID row.pauseSite) = some r) :
    assign_fork row lf rf =
      { row with
        direction := some "L"
        left_fork_start := some r.fstart
        left_fork_end := some r.fend
        strand := r.strand
        alignLen := some r.end_read
        contig := some r.contig
        start_read := some r.start_read
        end_read := some r.end_read } := by
  unfold assign_fork
  rw [h]

theorem assign_fork_eq_right (row : PauseRow) (lf rf : List LoadedFork) (r : LoadedFork)
    (hl : lf.find? (fork_matches row.readID row.pauseSite) = none)
    (hr : rf.find? (fork_matches row.readID row.pauseSite) = some r) :
    assign_fork row lf rf =
      { row with
        direction := some "R"
        right_fork_start := some r.fstart
        right_fork_end := some r.fend
        strand := r.strand
        alignLen := some r.end_read
        contig := some r.contig
        start_read := some r.start_read
        end_read := some r.end_read } := by
  unfold assign_fork
  rw [hl, hr]

theorem assign_fork_eq_id (row : PauseRow) (lf rf : List LoadedFork)
    (hl : lf.find? (fork_matches row.readID row.pauseSite) = none)
    (hr : rf.find? (fork_matches row.readID row.pauseSite) = none) :
    assign_fork row lf rf = row := by
  unfold assign_fork
  rw [hl, hr]

theorem find?_isSome_of_exists {α : Type} (p : α → Bool) (l : List α)
    (h : ∃ f ∈ l, p f = true) : ∃ r, l.find? p = some r := by
  have hs : (l.find? p).isSome := List.find?_isSome.mpr (by
    obtain ⟨f, hf, hm⟩ := h
    exact ⟨f, hf, hm⟩)
  exact Option.isSome_iff_exists.mp hs

theorem assign_fork_direction_left (row : PauseRow) (lf rf : List LoadedFork)
    (h : ∃ f ∈ lf, fork_matches row.readID row.pauseSite f = true) :
    (assign_fork row lf rf).direction = some "L" := by
  obtain ⟨r, hr⟩ := find?_isSome_of_exists _ lf h
  rw [assign_fork_eq_left row lf rf r hr]

/-! ### Claim theorems -/

/-- C2: if any left-fork interval of the read contains the pause site, the
matcher assigns direction "L", copies the first such fork's coordinates
(fork start/end, strand, contig, read start/end, read end as alignLen),
and the right-fork table plays no role: the result is the same for every
right-fork table. -/
theorem left_fork_priority (row : PauseRow) (lf rf rf2 : List LoadedFork)
    (h : ∃ f ∈ lf, fork_matches row.readID row.pauseSite f = true) :
    (assign_fork row lf rf).direction = some "L" ∧
    assign_fork row lf rf = assign_fork row lf rf2 ∧
    ∃ f, lf.find? (fork_matches row.readID row.pauseSite) = some f ∧
      (assign_fork row lf rf).left_fork_start = some f.fstart ∧
      (assign_fork row lf rf).left_fork_end = some f.fend ∧
      (assign_fork row lf rf).strand = f.strand ∧
      (assign_fork row lf rf).contig = some f.contig ∧
      (assign_fork row lf rf).start_read = some f.start_read ∧
      (assign_fork row lf rf).end_read = some f.end_read ∧
      (assign_fork row lf rf).alignLen = some f.end_read := by
  obtain ⟨r, hr⟩ := find?_isSome_of_exists _ lf h
  rw [assign_fork_eq_left row lf rf r hr, assign_fork_eq_left row lf rf2 r hr]
  exact ⟨rfl, rfl, r, hr, rfl, rfl, rfl, rfl, rfl, rfl, rfl⟩

/-- Witness for C2: a pause on read `readW` at site 50 with both a left
fork `[40, 60]` and a right fork `[45, 55]` available is assigned "L", and
the result does not depend on the right-fork table. -/
theorem left_fork_priority_witness :
    (assign_fork (init_pause wit_pause) [wit_fork_match] [wit_fork_right]).direction = some "L" ∧
    assign_fork (init_pause wit_pause) [wit_fork_match] [wit_fork_right] =
      assign_fork (init_pause wit_pause) [wit_fork_match] [] := by
  have h := left_fork_priority (init_pause wit_pause) [wit_fork_match] [wit_fork_right] []
    ⟨wit_fork_match, by decide, by decide⟩
  exact ⟨h.1, h.2.1⟩

/-- C3: when the interval at index `i` of a fork table overlaps the pause
record and no earlier interval does, the matcher copies exactly that
interval's coordinates — first in the loaded table's order wins, in the
left table, and in the right table when the left table has no overlap. -/
theorem first_overlap_in_order_wins :
    (∀ (row : PauseRow) (lf rf : List LoadedFork) (i : Nat) (hi : i < lf.length),
      fork_matches row.readID row.pauseSite (lf.get ⟨i, hi⟩) = true →
      (∀ j (hj : j < i), fork_matches row.readID row.pauseSite (lf.get ⟨j, Nat.lt_trans hj hi⟩) = false) →
      (assign_fork row lf rf).direction = some "L" ∧
      (assign_fork row lf rf).left_fork_start = some (lf.get ⟨i, hi⟩).fstart ∧
      (assign_fork row lf rf).left_fork_end = some (lf.get ⟨i, hi⟩).fend) ∧
    (∀ (row : PauseRow) (lf rf : List LoadedFork) (i : Nat) (hi : i < rf.length),
      (∀ f ∈ lf, fork_matches row.readID row.pauseSite f = false) →
      fork_matches row.readID row.pauseSite (rf.get ⟨i, hi⟩) = true →
      (∀ j (hj : j < i), fork_matches row.readID row.pauseSite (rf.get ⟨j, Nat.lt_trans hj hi⟩) = false) →
      (assign_fork row lf rf).direction = some "R" ∧
      (assign_fork row lf rf).right_fork_start = some (rf.get ⟨i, hi⟩).fstart ∧
      (assign_fork row lf rf).right_fork_end = some (rf.get ⟨i, hi⟩).fend) := by
  constructor
  · intro row lf rf i hi hp hfirst
    have hfind := find?_eq_get_of_first _ lf i hi hp hfirst
    rw [assign_fork_eq_left row lf rf _ hfind]
    exact ⟨rfl, rfl, rfl⟩
  · intro row lf rf i hi hnol hp hfirst
    have hlnone : lf.find? (fork_matches row.readID row.pauseSite) = none :=
      List.find?_eq_none.mpr (fun f hf => by simp [hnol f hf])
    have hfind := find?_eq_get_of_first _ rf i hi hp hfirst
    rw [assign_fork_eq_right row lf rf _ hlnone hfind]
    exact ⟨rfl, rfl, rfl⟩

/-- Witness for C3: with a non-overlapping fork at index 0 and an
overlapping fork `[40, 60]` at index 1, the matcher picks index 1. -/
theorem first_overlap_in_order_wins_witness :
    (assign_fork (init_pause wit_pause) [wit_fork_nomatch, wit_fork_match] []).direction = some "L" ∧
    (assign_fork (init_pause wit_pause) [wit_fork_nomatch, wit_fork_match] []).left_fork_start = some 40 ∧
    (assign_fork (init_pause wit_pause) [wit_fork_nomatch, wit_fork_match] []).left_fork_end = some 60 := by
  have h := first_overlap_in_order_wins.1 (init_pause wit_pause)
    [wit_fork_nomatch, wit_fork_match] [] 1 (by decide) (by decide)
    (fun j hj => by
      have hj0 : j = 0 := by omega
      subst hj0
      exact (by decide :
        fork_matches (init_pause wit_pause).readID (init_pause wit_pause).pauseSite
          wit_fork_nomatch = false))
  exact h

/-- C4: overlap is inclusive on both ends — a fork of the same read with
`fstart = pauseSite` or `fend = pauseSite` (including the degenerate
`fstart = fend = pauseSite`) satisfies the match predicate, and its
presence in the left table makes the matcher assign direction "L". -/
theorem inclusive_overlap_bounds (row : PauseRow) (f : LoadedFork)
    (hid : f.readID = row.readID) (hse : f.fstart ≤ f.fend)
    (hb : f.fstart = row.pauseSite ∨ f.fend = row.pauseSite) :
    fork_matches row.readID row.pauseSite f = true ∧
    ∀ lf rf : List LoadedFork, f ∈ lf → (assign_fork row lf rf).direction = some "L" := by
  have hm : fork_matches row.readID row.pauseSite f = true := by
    unfold fork_matches
    rw [hid]
    simp only [beq_self_eq_true, Bool.true_and, Bool.and_eq_true, decide_eq_true_eq]
    rcases hb with hb | hb <;> constructor <;> omega
  exact ⟨hm, fun lf rf hf => assign_fork_direction_left row lf rf ⟨f, hf, hm⟩⟩

/-- Witness for C4: the zero-length fork `[50, 50]` at pause site 50
matches and yields direction "L". -/
theorem inclusive_overlap_bounds_witness :
    fork_matches (init_pause wit_pause).readID (init_pause wit_pause).pauseSite
      wit_fork_degenerate = true ∧
    (assign_fork (init_pause wit_pause) [wit_fork_degenerate] []).direction = some "L" := by
  have h := inclusive_overlap_bounds (init_pause wit_pause) wit_fork_degenerate
    (by decide) (by decide) (Or.inl (by decide))
  exact ⟨h.1, h.2 [wit_fork_degenerate] [] (by decide)⟩

/-- C5: identifier reconstruction joins readID, contig, read start/end,
strand, direction and the direction-appropriate fork pair with
underscores — the left pair under direction "L" and the right pair under
direction "R" — and the §8 scenario (pause site 50 on `readA`, left fork
`chr1 40 60 fwd`) yields the single output row with detectIndex
`readA_chr1_10_90_+_L_40_60`. -/
theorem detect_index_reconstruction :
    (∀ row : OutRow, row.direction = some "L" →
      construct_detect_index row =
        row.readID ++ "_" ++ opt_str_str row.contig ++ "_" ++ opt_int_str row.start_read ++ "_" ++
          opt_int_str row.end_read ++ "_" ++ opt_str_str row.strand ++ "_" ++ "L" ++ "_" ++
          opt_int_str row.left_fork_start ++ "_" ++ opt_int_str row.left_fork_end) ∧
    (∀ row : OutRow, row.direction = some "R" →
      construct_detect_index row =
        row.readID ++ "_" ++ opt_str_str row.contig ++ "_" ++ opt_int_str row.start_read ++ "_" ++
          opt_int_str row.end_read ++ "_" ++ opt_str_str row.strand ++ "_" ++ "R" ++ "_" ++
          opt_int_str row.right_fork_start ++ "_" ++ opt_int_str row.right_fork_end) ∧
    run_pipeline [] [scenario_pause] [scenario_left_fork] [] = [scenario_out] := by
  refine ⟨?_, ?_, by decide⟩
  · intro row h
    unfold construct_detect_index
    rw [h]
    simp [opt_str_str]
  · intro row h
    unfold construct_detect_index
    rw [h]
    simp [opt_str_str]

/-- Witness for C5: reconstruction on the scenario's matched row gives the
expected underscore-joined identifier. -/
theorem detect_index_reconstruction_witness :
    construct_detect_index scenario_out = "readA_chr1_10_90_+_L_40_60" := by
  have h := detect_index_reconstruction.1 scenario_out (by decide)
  exact h.trans (by decide)

/-- C8: on a contig of length 250 with events at 10, 150, 151 and 249 and
window = slide = 100, the counter emits `[0,100) ↦ 1`, `[100,200) ↦ 2`,
`[200,250) ↦ 1`; the second conjunct checks the half-open convention
(`start ≤ position < end`) at window boundaries. -/
theorem sliding_window_scenario :
    sliding_window [("chrI", 250)] [("chrI", [10, 150, 151, 249])] 100 100 =
      [("chrI", 0, 100, 1), ("chrI", 100, 200, 2), ("chrI", 200, 250, 1)] ∧
    count_events_in_window "chrI" 100 200 [100, 199, 200] = 2 := by
  exact ⟨by decide, by decide⟩

/-- Every start produced by `py_range0 stop step` with positive step is
below `stop`. -/
theorem mem_py_range0_lt (stop step x : Nat) (hstep : 0 < step)
    (hx : x ∈ py_range0 stop step) : x < stop := by
  unfold py_range0 at hx
  obtain ⟨i, hi, rfl⟩ := List.mem_map.mp hx
  rw [List.mem_range] at hi
  have h2 : (i + 1) * step ≤ stop + step - 1 := (Nat.le_div_iff_mul_le hstep).mp hi
  have h3 : i * step + step ≤ stop + step - 1 := by
    rw [Nat.succ_mul] at h2
    exact h2
  omega

/-- C9: with positive window and slide sizes, every emitted window row
`(c, start, end, count)` satisfies `start < end` and `end ≤ size` for the
size of its contig (starts are natural numbers, so `0 ≤ start` holds by
typing). -/
theorem window_rows_within_contig (contig_sizes : List (String × Nat))
    (events : List (String × List Int)) (window_size slide_size : Nat)
    (hw : 0 < window_size) (hs : 0 < slide_size)
    (c : String) (s e n : Nat)
    (hmem : (c, s, e, n) ∈ sliding_window contig_sizes events window_size slide_size) :
    ∃ size : Nat, (c, size) ∈ contig_sizes ∧ s < e ∧ e ≤ size := by
  unfold sliding_window at hmem
  rw [List.mem_flatMap] at hmem
  obtain ⟨cs, hcs, hrow⟩ := hmem
  rcases cs with ⟨c1, sz⟩
  rw [List.mem_map] at hrow
  obtain ⟨st, hst, heq⟩ := hrow
  simp only [Prod.mk.injEq] at heq
  obtain ⟨h1, h2, h3, _⟩ := heq
  subst h1
  rw [h2] at h3 hst
  have hlt : s < sz := mem_py_range0_lt sz slide_size s hs hst
  refine ⟨sz, hcs, ?_, ?_⟩
  · rw [← h3]
    exact Nat.lt_min.mpr ⟨by omega, hlt⟩
  · rw [← h3]
    exact min_le_right _ _

/-- Witness for C9 at the C8 scenario's final truncated window
`[200, 250)`. -/
theorem window_rows_within_contig_witness :
    ∃ size : Nat, ("chrI", size) ∈ [("chrI", 250)] ∧ 200 < 250 ∧ 250 ≤ size := by
  exact window_rows_within_contig [("chrI", 250)] [("chrI", [10, 150, 151, 249])] 100 100
    (by decide) (by decide) "chrI" 200 250 1 (by decide)

/-- C10: matching writes only the augmentation columns — a record assigned
"L" keeps its right fork pair at the "NA" sentinel, a record assigned "R"
keeps its left pair at "NA", and `passthrough`, `detectIndex`,
`pauseSite` and `readID` are untouched by `assign_fork`. -/
theorem matcher_frame_effect (p : PauseInput) (lf rf : List LoadedFork) :
    ((assign_fork (init_pause p) lf rf).direction = some "L" →
      (assign_fork (init_pause p) lf rf).right_fork_start = none ∧
      (assign_fork (init_pause p) lf rf).right_fork_end = none) ∧
    ((assign_fork (init_pause p) lf rf).direction = some "R" →
      (assign_fork (init_pause p) lf rf).left_fork_start = none ∧
      (assign_fork (init_pause p) lf rf).left_fork_end = none) ∧
    (assign_fork (init_pause p) lf rf).passthrough = p.passthrough ∧
    (assign_fork (init_pause p) lf rf).detectIndex = p.detectIndex ∧
    (assign_fork (init_pause p) lf rf).pauseSite = p.pauseSite ∧
    (assign_fork (init_pause p) lf rf).readID = derive_readID p.detectIndex := by
  rcases hl : (lf.find? (fork_matches (init_pause p).readID (init_pause p).pauseSite)) with _ | r
  · rcases hr : (rf.find? (fork_matches (init_pause p).readID (init_pause p).pauseSite)) with _ | r
    · rw [assign_fork_eq_id _ _ _ hl hr]
      simp [init_pause]
    · rw [assign_fork_eq_right _ _ _ r hl hr]
      simp [init_pause]
  · rw [assign_fork_eq_left _ _ _ r hl]
    simp [init_pause]

/-- Witness for C10: an "L"-assigned record keeps both right-fork cells at
"NA" and its passthrough column unchanged. -/
theorem matcher_frame_effect_witness :
    (assign_fork (init_pause wit_pause) [wit_fork_match] []).right_fork_start = none ∧
    (assign_fork (init_pause wit_pause) [wit_fork_match] []).right_fork_end = none ∧
    (assign_fork (init_pause wit_pause) [wit_fork_match] []).passthrough = [("score", "3")] := by
  have h := matcher_frame_effect wit_pause [wit_fork_match] []
  have hd := h.1 (by decide)
  exact ⟨hd.1, hd.2, h.2.2.1.trans (by decide)⟩

/-- Counterexample to C6: `split("_")[0]` does not fail on an empty or
separator-free detect index — Python splitting always yields a non-empty
list, so index 0 succeeds and returns the empty string, respectively the
whole string. -/
theorem read_id_derivation_counterexample :
    py_index0 (py_split '_' "".data) = some [] ∧
    py_index0 (py_split '_' "abc".data) = some "abc".data ∧
    derive_readID "" = "" ∧
    derive_readID "abc" = "abc" := by
  exact ⟨by decide, by decide, by decide, by decide⟩

/-- C6 (amended): the read-id derivation is total — indexing the split
result at 0 always succeeds; an empty detect index yields the empty
read id, and a detect index with no underscore yields the whole string. -/
theorem read_id_derivation_total :
    (∀ s : String, (py_index0 (py_split '_' s.data)).isSome = true) ∧
    derive_readID "" = "" ∧
    (∀ s : String, (∀ c ∈ s.data, c ≠ '_') → derive_readID s = s) := by
  refine ⟨?_, by decide, ?_⟩
  · intro s
    rcases h : py_split '_' s.data with _ | ⟨x, xs⟩
    · exact absurd h (py_split_ne_nil _ _)
    · simp [py_index0, h]
  · intro s hns
    unfold derive_readID py_split
    rw [py_split_p_aux_no_sep _ _ [] (fun c hc => by simp [hns c hc])]
    simp only [py_index0, List.reverse_nil, List.nil_append, List.head?_cons, Option.getD_some]

/-- Witness for C6 (amended) at a separator-free detect index. -/
theorem read_id_derivation_total_witness :
    derive_readID "xyz" = "xyz" := by
  exact read_id_derivation_total.2.2 "xyz" (by decide)

/-- Counterexample to C7: a BED data line referencing contig `chr2`,
absent from a FASTA holding only `chr1`, does not abort the converter —
it produces a successful run with the line skipped and a warning. -/
theorem missing_contig_counterexample :
    bed_to_genbank ["chr1"] ["chr2\t5\t10\tgene\t0\t+"] none =
      Except.ok ([], ["Warning: contig chr2 not in FASTA; skipping."]) := by
  rfl

/-- C7 (amended): a missing contig is fatal only when it is the contig of
the requested region (checked before the BED file is read); a BED line
whose contig is absent from the FASTA is skipped with a warning and the
run continues. -/
theorem missing_contig_policy :
    (∀ (contigs bedLines : List String) (rc : String) (rs re2 : Int),
      rc ∉ contigs →
      bed_to_genbank contigs bedLines (some (rc, rs, re2)) =
        Except.error ("Contig " ++ rc ++ " not found in FASTA file.")) ∧
    (∀ (contigs : List String) (region : Option (String × Int × Int)) (line : String),
      ¬(py_strip line = "" ∨ py_startswith line "#") →
      6 ≤ (py_split_str '\t' (py_strip line)).length →
      (py_split_str '\t' (py_strip line)).getD 0 "" ∉ contigs →
      process_bed_line contigs region line =
        Except.ok (none, some ("Warning: contig " ++
          (py_split_str '\t' (py_strip line)).getD 0 "" ++ " not in FASTA; skipping."))) := by
  constructor
  · intro contigs bedLines rc rs re2 hrc
    unfold bed_to_genbank
    dsimp only
    rw [if_neg hrc]
  · intro contigs region line h1 h2 h3
    unfold process_bed_line
    rw [if_neg h1]
    rw [if_neg (show ¬((py_split_str '\t' (py_strip line)).length < 6) by omega)]
    rw [if_pos h3]

/-- Witness for C7 (amended): requesting region `chrX:1-2` against a FASTA
holding only `chr1` aborts with the missing-contig message. -/
theorem missing_contig_policy_witness :
    bed_to_genbank ["chr1"] [] (some ("chrX", 1, 2)) =
      Except.error "Contig chrX not found in FASTA file." := by
  exact missing_contig_policy.1 ["chr1"] [] "chrX" 1 2 (by decide)

/-- Decomposition of the output key count: matched rows contribute their
`pkey` count, and each fork table contributes the count over its
not-yet-used rows. -/
theorem pipeline_countP_decomp (cols : List String) (pauseIn : List PauseInput)
    (lfRaw rfRaw : List ForkRaw) (K : UsedForkKey) :
    (run_pipeline cols pauseIn lfRaw rfRaw).countP (fun r => decide (out_key r = K)) =
      (matched_pause_rows pauseIn lfRaw rfRaw).countP (fun r => decide (pkey r = K))
      + ((load_fork_file lfRaw "lf").filter
          (fun r => decide (fork_key "L" r ∉ used_fork_keys (matched_pause_rows pauseIn lfRaw rfRaw)))).countP
          (fun r => decide (fork_key "L" r = K))
      + ((load_fork_file rfRaw "rf").filter
          (fun r => decide (fork_key "R" r ∉ used_fork_keys (matched_pause_rows pauseIn lfRaw rfRaw)))).countP
          (fun r => decide (fork_key "R" r = K)) := by
  have h0 : run_pipeline cols pauseIn lfRaw rfRaw =
      matched_out (matched_pause_rows pauseIn lfRaw rfRaw) ++
        (((load_fork_file lfRaw "lf").filter
            (fun r => decide (fork_key "L" r ∉ used_fork_keys (matched_pause_rows pauseIn lfRaw rfRaw)))).map
            (synth_row cols "L") ++
          ((load_fork_file rfRaw "rf").filter
            (fun r => decide (fork_key "R" r ∉ used_fork_keys (matched_pause_rows pauseIn lfRaw rfRaw)))).map
            (synth_row cols "R")) := rfl
  rw [h0, List.countP_append, List.countP_append]
  have e1 : (matched_out (matched_pause_rows pauseIn lfRaw rfRaw)).countP
      (fun r => decide (out_key r = K)) =
      (matched_pause_rows pauseIn lfRaw rfRaw).countP (fun r => decide (pkey r = K)) := by
    unfold matched_out
    rw [List.countP_map]
    exact rfl
  have e2 : (((load_fork_file lfRaw "lf").filter
      (fun r => decide (fork_key "L" r ∉ used_fork_keys (matched_pause_rows pauseIn lfRaw rfRaw)))).map
      (synth_row cols "L")).countP (fun r => decide (out_key r = K)) =
      ((load_fork_file lfRaw "lf").filter
        (fun r => decide (fork_key "L" r ∉ used_fork_keys (matched_pause_rows pauseIn lfRaw rfRaw)))).countP
        (fun r => decide (fork_key "L" r = K)) := by
    rw [List.countP_map]
    exact rfl
  have e3 : (((load_fork_file rfRaw "rf").filter
      (fun r => decide (fork_key "R" r ∉ used_fork_keys (matched_pause_rows pauseIn lfRaw rfRaw)))).map
      (synth_row cols "R")).countP (fun r => decide (out_key r = K)) =
      ((load_fork_file rfRaw "rf").filter
        (fun r => decide (fork_key "R" r ∉ used_fork_keys (matched_pause_rows pauseIn lfRaw rfRaw)))).countP
        (fun r => decide (fork_key "R" r = K)) := by
    rw [List.countP_map]
    exact rfl
  rw [e1, e2, e3]
  omega

/-- If the key `K` was consumed by a matched row, no synthesized row of
either table carries it. -/
theorem synth_countP_zero_of_mem (tbl : List LoadedFork) (dir : String)
    (used : List UsedForkKey) (K : UsedForkKey) (hKu : K ∈ used) :
    (tbl.filter (fun r => decide (fork_key dir r ∉ used))).countP
      (fun r => decide (fork_key dir r = K)) = 0 := by
  rw [List.countP_eq_zero]
  intro a ha hfa
  rw [decide_eq_true_eq] at hfa
  have hnotin := (List.mem_filter.mp ha).2
  rw [decide_eq_true_eq] at hnotin
  exact hnotin (by rw [hfa]; exact hKu)

/-- Synthesized rows of one direction never carry a key of the other
direction. -/
theorem synth_countP_zero_of_dir_ne (tbl : List LoadedFork) (dir d2 : String)
    (used : List UsedForkKey) (f : LoadedFork) (hne : dir ≠ d2) :
    (tbl.filter (fun r => decide (fork_key dir r ∉ used))).countP
      (fun r => decide (fork_key dir r = fork_key d2 f)) = 0 := by
  rw [List.countP_eq_zero]
  intro a ha hfa
  rw [decide_eq_true_eq] at hfa
  have h4 := congrArg (fun q : UsedForkKey => q.2.2.2) hfa
  exact hne h4

/-- An unused fork key of table row `f` survives the filter: its count
among that table's synthesized rows is positive, and equals one when the
table's keys are duplicate-free. -/
theorem synth_countP_of_not_mem (tbl : List LoadedFork) (dir : String)
    (used : List UsedForkKey) (f : LoadedFork)
    (hKu : fork_key dir f ∉ used) (hfl : f ∈ tbl) :
    0 < (tbl.filter (fun r => decide (fork_key dir r ∉ used))).countP
        (fun r => decide (fork_key dir r = fork_key dir f)) ∧
    ((tbl.map (fork_key dir)).Nodup →
      (tbl.filter (fun r => decide (fork_key dir r ∉ used))).countP
        (fun r => decide (fork_key dir r = fork_key dir f)) = 1) := by
  constructor
  · rw [List.countP_pos_iff]
    refine ⟨f, ?_, by simp⟩
    rw [List.mem_filter]
    exact ⟨hfl, by simpa using hKu⟩
  · intro hnd
    have hpq : (fun a => decide (fork_key dir a = fork_key dir f) &&
        decide (fork_key dir a ∉ used)) =
        (fun a => decide (fork_key dir a = fork_key dir f)) := by
      funext a
      by_cases hpa : fork_key dir a = fork_key dir f
      · simp [hpa, hKu]
      · simp [hpa]
    rw [List.countP_filter, hpq]
    exact countP_eq_one_of_nodup_map (fork_key dir) tbl (fork_key dir f) hnd
      (List.mem_map_of_mem _ hfl)

/-- A key in the used set comes from at least one matched row. -/
theorem matched_countP_pos (paused : List PauseRow) (K : UsedForkKey)
    (hKu : K ∈ used_fork_keys paused) :
    0 < paused.countP (fun r => decide (pkey r = K)) := by
  unfold used_fork_keys at hKu
  obtain ⟨r0, hr0, hkr0⟩ := List.mem_map.mp hKu
  rw [List.countP_pos_iff]
  exact ⟨r0, hr0, by simp [hkr0]⟩

/-- A key outside the used set comes from no matched row. -/
theorem matched_countP_zero (paused : List PauseRow) (K : UsedForkKey)
    (hKu : K ∉ used_fork_keys paused) :
    paused.countP (fun r => decide (pkey r = K)) = 0 := by
  unfold used_fork_keys at hKu
  rw [List.countP_eq_zero]
  intro r hr hp
  rw [decide_eq_true_eq] at hp
  exact hKu (hp ▸ List.mem_map_of_mem pkey hr)

/-- Counterexample to C1: with two pause records on read `a` (sites 50 and
55) and the single left fork `[40, 60]` on read `a`, the fork's key
appears in two output rows, not exactly one — both matched rows carry it
and the orphan synthesizer skips it only once. -/
theorem fork_key_duplicated_counterexample :
    dup_fork_loaded ∈ load_fork_file [dup_fork_raw] "lf" ∧
    (run_pipeline [] [dup_pause_one, dup_pause_two] [dup_fork_raw] []).countP
      (fun r => decide (out_key r = fork_key "L" dup_fork_loaded)) = 2 := by
  exact ⟨by decide, by decide⟩

/-- C1 (amended): every fork interval's used-fork key appears in at least
one output row (never zero); it appears in exactly one output row provided
the fork tables carry no duplicate keys and no two matched pause records
consume the same fork key. -/
theorem fork_key_output_count (template_columns : List String) (pauseIn : List PauseInput)
    (lfRaw rfRaw : List ForkRaw) (d : String) (f : LoadedFork)
    (hf : (f ∈ load_fork_file lfRaw "lf" ∧ d = "L") ∨ (f ∈ load_fork_file rfRaw "rf" ∧ d = "R")) :
    1 ≤ (run_pipeline template_columns pauseIn lfRaw rfRaw).countP
        (fun r => decide (out_key r = fork_key d f)) ∧
    (((load_fork_file lfRaw "lf").map (fork_key "L")).Nodup →
      ((load_fork_file rfRaw "rf").map (fork_key "R")).Nodup →
      (used_fork_keys (matched_pause_rows pauseIn lfRaw rfRaw)).Nodup →
      (run_pipeline template_columns pauseIn lfRaw rfRaw).countP
        (fun r => decide (out_key r = fork_key d f)) = 1) := by
  rcases hf with ⟨hfl, hd⟩ | ⟨hfr, hd⟩
  · subst hd
    by_cases hKu : fork_key "L" f ∈ used_fork_keys (matched_pause_rows pauseIn lfRaw rfRaw)
    · have hz1 := synth_countP_zero_of_mem (load_fork_file lfRaw "lf") "L" _ _ hKu
      have hz2 := synth_countP_zero_of_mem (load_fork_file rfRaw "rf") "R" _ _ hKu
      have hp := matched_countP_pos _ _ hKu
      constructor
      · rw [pipeline_countP_decomp, hz1, hz2]
        omega
      · intro h1 h2 h3
        have h1m : (matched_pause_rows pauseIn lfRaw rfRaw).countP
            (fun r => decide (pkey r = fork_key "L" f)) = 1 :=
          countP_eq_one_of_nodup_map pkey _ _ h3 hKu
        rw [pipeline_countP_decomp, hz1, hz2, h1m]
    · have hm0 := matched_countP_zero _ _ hKu
      have hsyn := synth_countP_of_not_mem (load_fork_file lfRaw "lf") "L" _ f hKu hfl
      have hz2 := synth_countP_zero_of_dir_ne (load_fork_file rfRaw "rf") "R" "L"
        (used_fork_keys (matched_pause_rows pauseIn lfRaw rfRaw)) f (by decide)
      constructor
      · rw [pipeline_countP_decomp, hm0, hz2]
        have := hsyn.1
        omega
      · intro h1 h2 h3
        rw [pipeline_countP_decomp, hm0, hz2, hsyn.2 h1]
  · subst hd
    by_cases hKu : fork_key "R" f ∈ used_fork_keys (matched_pause_rows pauseIn lfRaw rfRaw)
    · have hz1 := synth_countP_zero_of_mem (load_fork_file lfRaw "lf") "L" _ _ hKu
      have hz2 := synth_countP_zero_of_mem (load_fork_file rfRaw "rf") "R" _ _ hKu
      have hp := matched_countP_pos _ _ hKu
      constructor
      · rw [pipeline_countP_decomp, hz1, hz2]
        omega
      · intro h1 h2 h3
        have h1m : (matched_pause_rows pauseIn lfRaw rfRaw).countP
            (fun r => decide (pkey r = fork_key "R" f)) = 1 :=
          countP_eq_one_of_nodup_map pkey _ _ h3 hKu
        rw [pipeline_countP_decomp, hz1, hz2, h1m]
    · have hm0 := matched_countP_zero _ _ hKu
      have hsyn := synth_countP_of_not_mem (load_fork_file rfRaw "rf") "R" _ f hKu hfr
      have hz1 := synth_countP_zero_of_dir_ne (load_fork_file lfRaw "lf") "L" "R"
        (used_fork_keys (matched_pause_rows pauseIn lfRaw rfRaw)) f (by decide)
      constructor
      · rw [pipeline_countP_decomp, hm0, hz1]
        have := hsyn.1
        omega
      · intro h1 h2 h3
        rw [pipeline_countP_decomp, hm0, hz1, hsyn.2 h2]

/-- Witness for C1 (amended): with a single matching pause record, the
fork's key appears exactly once in the output. -/
theorem fork_key_output_count_witness :
    (run_pipeline [] [dup_pause_one] [dup_fork_raw] []).countP
      (fun r => decide (out_key r = fork_key "L" dup_fork_loaded)) = 1 := by
  exact (fork_key_output_count [] [dup_pause_one] [dup_fork_raw] [] "L" dup_fork_loaded
    (Or.inl ⟨by decide, rfl⟩)).2 (by decide) (by decide) (by decide)
